import Mathlib

/-!
Verification of the sampling-and-encoding pipeline of `vertex_animation.py`
(Blender VAT generator).  The Python source is shallowly embedded: Blender
float coordinates become rationals, the host evaluation engine is an explicit
function argument, fallible indexing returns `Option`.
-/

set_option maxHeartbeats 1000000

namespace VATGen

/-- 3-component vector; Blender float coordinates modelled as rationals. -/
structure Vec3 where
  x : ℚ
  y : ℚ
  z : ℚ
deriving DecidableEq

instance : Inhabited Vec3 := ⟨⟨0, 0, 0⟩⟩

/-- One vertex of an evaluated mesh: position `co` and per-vertex normal,
as read back from `me.vertices[i].co` / `.normal` after `me.calc_normals()`. -/
structure Vert where
  co : Vec3
  normal : Vec3
deriving DecidableEq

instance : Inhabited Vert := ⟨⟨default, default⟩⟩

/-- A combined evaluated mesh snapshot: vertex records in combined order
(objects concatenated in selection order, each in native vertex order). -/
structure MeshData where
  verts : List Vert
deriving DecidableEq

instance : Inhabited MeshData := ⟨⟨[]⟩⟩

/-- One selected mesh object together with the host engine's evaluation answer:
`evalVert f v` is vertex `v`'s deformed world-space record at frame `f`
(the black-box `evaluated_get` + `matrix_world` transform + `calc_normals`).
The allow-listed modifiers are deform-only, so the evaluated vertex count
equals `vertCount` (the count of `ob.data.vertices`) and the loop topology
`loopVerts` (the `loop.vertex_index` of each of the object's mesh loops, in
loop order) is frame-independent.
`vgroups v` lists the vertex-group indices of `ob.data.vertices[v].groups`;
`vertexGroups` lists the names of `ob.vertex_groups` in index order. -/
structure SceneObject where
  vertCount : Nat
  loopVerts : List Nat
  modifiers : List String
  vertexGroups : List String
  vgroups : Nat → List Nat
  evalVert : Int → Nat → Vert

/-- The scene configuration read by the operator: frame range from the scene,
reference frame and rigid toggle from `rigid_settings`. Blender's RNA setters
keep `frame_start ≤ frame_end` and `frame_step ≥ 1`; theorems that need these
host invariants take them as hypotheses. -/
structure SceneCfg where
  frameStart : Int
  frameEnd : Int
  frameStep : Int
  refFrame : Int
  rigid : Bool
deriving DecidableEq

/-- Element count of Python `range(start, stop, step)` for `step > 0`
(`max 0 (ceil ((stop - start) / step))`). -/
def pyRangeLen (start stop step : Int) : Nat :=
  if 0 < step then ((stop - start).toNat + (step.toNat - 1)) / step.toNat else 0

/-- Python `range(start, stop, step)` for a positive step, as the list of its
elements (`start + k*step` for `k < pyRangeLen`). -/
def pyRange (start stop step : Int) : List Int :=
  (List.range (pyRangeLen start stop step)).map
    (fun k : Nat => start + (k : Int) * step)

/-- `frame_range(scene)`: `range(frame_start, frame_end + frame_step, frame_step)`. -/
def frameRange (cfg : SceneCfg) : List Int :=
  pyRange cfg.frameStart (cfg.frameEnd + cfg.frameStep) cfg.frameStep

/-- The reference frame actually used after the clamp on lines 198-199:
`if ref_frame not in frange: ref_frame = frange.start`. -/
def effectiveRefFrame (cfg : SceneCfg) : Int :=
  if cfg.refFrame ∈ frameRange cfg then cfg.refFrame else cfg.frameStart

theorem mem_pyRange {start stop step f : Int} :
    f ∈ pyRange start stop step ↔
      ∃ k : Nat, k < pyRangeLen start stop step ∧ f = start + (k : Int) * step := by
  unfold pyRange
  rw [List.mem_map]
  constructor
  · rintro ⟨k, hk, rfl⟩
    exact ⟨k, List.mem_range.mp hk, rfl⟩
  · rintro ⟨k, hk, rfl⟩
    exact ⟨k, List.mem_range.mpr hk, rfl⟩

theorem length_pyRange (start stop step : Int) :
    (pyRange start stop step).length = pyRangeLen start stop step := by
  rw [pyRange, List.length_map, List.length_range]

/-- Under the host invariants the range length is `ceil ((end-start)/step) + 1`. -/
theorem frameRangeLen_eq (cfg : SceneCfg)
    (h1 : cfg.frameStart ≤ cfg.frameEnd) (h2 : 1 ≤ cfg.frameStep) :
    pyRangeLen cfg.frameStart (cfg.frameEnd + cfg.frameStep) cfg.frameStep
      = ((cfg.frameEnd - cfg.frameStart).toNat + (cfg.frameStep.toNat - 1))
          / cfg.frameStep.toNat + 1 := by
  have hs : (0 : Int) < cfg.frameStep := by omega
  have hnum : (cfg.frameEnd + cfg.frameStep - cfg.frameStart).toNat
      = (cfg.frameEnd - cfg.frameStart).toNat + cfg.frameStep.toNat := by omega
  rw [pyRangeLen, if_pos hs, hnum]
  rw [show (cfg.frameEnd - cfg.frameStart).toNat + cfg.frameStep.toNat
        + (cfg.frameStep.toNat - 1)
      = ((cfg.frameEnd - cfg.frameStart).toNat + (cfg.frameStep.toNat - 1))
        + cfg.frameStep.toNat by omega]
  exact Nat.add_div_right _ (by omega)

/-- Same statement for the sampled-frame list itself. -/
theorem frameRange_length (cfg : SceneCfg)
    (h1 : cfg.frameStart ≤ cfg.frameEnd) (h2 : 1 ≤ cfg.frameStep) :
    (frameRange cfg).length
      = ((cfg.frameEnd - cfg.frameStart).toNat + (cfg.frameStep.toNat - 1))
          / cfg.frameStep.toNat + 1 := by
  rw [frameRange, length_pyRange]
  exact frameRangeLen_eq cfg h1 h2

/-- The range's first frame is always sampled (the range is nonempty). -/
theorem start_mem_frameRange (cfg : SceneCfg)
    (h1 : cfg.frameStart ≤ cfg.frameEnd) (h2 : 1 ≤ cfg.frameStep) :
    cfg.frameStart ∈ frameRange cfg := by
  rw [frameRange, mem_pyRange]
  refine ⟨0, ?_, by push_cast; ring⟩
  rw [frameRangeLen_eq cfg h1 h2]
  exact Nat.succ_pos _

/-- The effective reference frame is always a sampled frame. -/
theorem effectiveRefFrame_mem (cfg : SceneCfg)
    (h1 : cfg.frameStart ≤ cfg.frameEnd) (h2 : 1 ≤ cfg.frameStep) :
    effectiveRefFrame cfg ∈ frameRange cfg := by
  unfold effectiveRefFrame
  split
  · assumption
  · exact start_mem_frameRange cfg h1 h2

/-- Configuration falsifying claim C1: frames 1..4, step 2. -/
def cfgC1 : SceneCfg := ⟨1, 4, 2, 1, false⟩

/-- C1 counterexample: with `frame_start = 1`, `frame_end = 4`, `frame_step = 2`
the sampler visits `range(1, 6, 2) = [1, 3, 5]`: the sampled count is 3, not
`floor((4-1)/2) + 1 = 2`, and the sampled frame 5 exceeds `frame_end = 4`. -/
theorem C1_counterexample :
    ¬ ((frameRange cfgC1).length = (4 - 1) / 2 + 1
        ∧ ∀ f ∈ frameRange cfgC1, f ≤ cfgC1.frameEnd) := by
  decide

/-- C1 (amended): the Frame Sampler evaluates `range(start, end + step, step)`:
the sampled count is `ceil((end-start)/step) + 1`, every sampled frame `f`
satisfies `start ≤ f ≤ end + step - 1` (so it may exceed `end` by up to
`step - 1` when `step` does not divide `end - start`), and every frame
`start + k*step` lying in `[start, end]` is sampled.  This matches the claim
exactly when `step` divides `end - start`. -/
theorem C1_frame_sampler_amended (cfg : SceneCfg)
    (h1 : cfg.frameStart ≤ cfg.frameEnd) (h2 : 1 ≤ cfg.frameStep) :
    (frameRange cfg).length
        = ((cfg.frameEnd - cfg.frameStart).toNat + (cfg.frameStep.toNat - 1))
            / cfg.frameStep.toNat + 1
      ∧ (∀ f ∈ frameRange cfg,
          cfg.frameStart ≤ f ∧ f ≤ cfg.frameEnd + (cfg.frameStep - 1))
      ∧ (∀ k : Nat, cfg.frameStart + (k : Int) * cfg.frameStep ≤ cfg.frameEnd →
          cfg.frameStart + (k : Int) * cfg.frameStep ∈ frameRange cfg) := by
  have hs : (0 : Int) < cfg.frameStep := by omega
  have hsn : 1 ≤ cfg.frameStep.toNat := by omega
  set e : Nat := (cfg.frameEnd - cfg.frameStart).toNat with he
  set sn : Nat := cfg.frameStep.toNat with hsn'
  have hse : (sn : Int) = cfg.frameStep := by omega
  have hee : (e : Int) = cfg.frameEnd - cfg.frameStart := by omega
  have hcast : ((sn - 1 : Nat) : Int) = (sn : Int) - 1 := by omega
  have hLen : pyRangeLen cfg.frameStart (cfg.frameEnd + cfg.frameStep)
      cfg.frameStep = (e + (sn - 1)) / sn + 1 := frameRangeLen_eq cfg h1 h2
  refine ⟨frameRange_length cfg h1 h2, ?_, ?_⟩
  · intro f hf
    rw [frameRange, mem_pyRange] at hf
    obtain ⟨k, hk, rfl⟩ := hf
    rw [hLen] at hk
    have hkk : k ≤ (e + (sn - 1)) / sn := Nat.lt_succ_iff.mp hk
    have hmul : k * sn ≤ e + (sn - 1) :=
      le_trans (Nat.mul_le_mul_right sn hkk) (Nat.div_mul_le_self _ _)
    have hmul' : (k : Int) * (sn : Int) ≤ (e : Int) + ((sn - 1 : Nat) : Int) := by
      exact_mod_cast hmul
    rw [← hse]
    constructor
    · have h0 : (0 : Int) ≤ (k : Int) * (sn : Int) := by positivity
      linarith
    · linarith [hmul', hcast, hee]
  · intro k hk
    have hmulI : (k : Int) * (sn : Int) ≤ (e : Int) := by
      rw [hse, hee]; linarith
    have hmulN : k * sn ≤ e := by exact_mod_cast hmulI
    have hkle : k ≤ e / sn := (Nat.le_div_iff_mul_le (by omega)).2 hmulN
    have hdivle : e / sn ≤ (e + (sn - 1)) / sn :=
      Nat.div_le_div_right (by omega)
    rw [frameRange, mem_pyRange]
    exact ⟨k, by rw [hLen]; exact Nat.lt_succ_of_le (le_trans hkle hdivle), rfl⟩

/-- Witness for the amended C1 at frames 1..5, step 2: count 3, all frames in
[1, 6], and 1, 3, 5 sampled. -/
theorem C1_amended_witness :
    (frameRange ⟨1, 5, 2, 1, false⟩).length
        = (((5 : Int) - 1).toNat + (((2 : Int)).toNat - 1)) / ((2 : Int)).toNat + 1
      ∧ (∀ f ∈ frameRange ⟨1, 5, 2, 1, false⟩, (1 : Int) ≤ f ∧ f ≤ 5 + (2 - 1))
      ∧ (∀ k : Nat, (1 : Int) + (k : Int) * 2 ≤ 5 →
          (1 : Int) + (k : Int) * 2 ∈ frameRange ⟨1, 5, 2, 1, false⟩) :=
  C1_frame_sampler_amended ⟨1, 5, 2, 1, false⟩ (by decide) (by decide)

/-- The normal tuple emitted on line 135:
`((x + 1) * 0.5, (-y + 1) * 0.5, (z + 1) * 0.5, 1)`. -/
def normalTuple (n : Vec3) : List ℚ :=
  [(n.x + 1) * (1 / 2), (-n.y + 1) * (1 / 2), (n.z + 1) * (1 / 2), 1]

/-- The componentwise decoding `v' = v * 2 - 1` named by the spec. -/
def decodeComponent (v : ℚ) : ℚ := v * 2 - 1

/-- `v*2-1` applied to the first three components of an emitted tuple. -/
def decodeFirstThree (t : List ℚ) : List ℚ := (t.take 3).map decodeComponent

/-- C2 counterexample: for the unit normal `n = (0, 1, 0)`, applying
`v*2-1` componentwise to the first three emitted components yields
`(0, -1, 0) ≠ n` — the Y flip is not undone. -/
theorem C2_counterexample :
    (⟨0, 1, 0⟩ : Vec3).x * (⟨0, 1, 0⟩ : Vec3).x
        + (⟨0, 1, 0⟩ : Vec3).y * (⟨0, 1, 0⟩ : Vec3).y
        + (⟨0, 1, 0⟩ : Vec3).z * (⟨0, 1, 0⟩ : Vec3).z = 1
      ∧ ¬ (decodeFirstThree (normalTuple ⟨0, 1, 0⟩)
            = [(⟨0, 1, 0⟩ : Vec3).x, (⟨0, 1, 0⟩ : Vec3).y, (⟨0, 1, 0⟩ : Vec3).z]) := by
  constructor
  · norm_num
  · norm_num [decodeFirstThree, normalTuple, decodeComponent]

/-- C2 (amended): for every unit normal, applying `v*2-1` componentwise and
additionally negating the second component (undoing the emitted Y flip)
recovers `(nx, ny, nz)` exactly. -/
theorem C2_normal_roundtrip_amended (n : Vec3)
    (_h : n.x * n.x + n.y * n.y + n.z * n.z = 1) :
    (decodeFirstThree (normalTuple n)).headD 0 = n.x
      ∧ -((decodeFirstThree (normalTuple n)).getD 1 0) = n.y
      ∧ (decodeFirstThree (normalTuple n)).getD 2 0 = n.z := by
  have e0 : (decodeFirstThree (normalTuple n)).headD 0
      = decodeComponent ((n.x + 1) * (1 / 2)) := rfl
  have e1 : (decodeFirstThree (normalTuple n)).getD 1 0
      = decodeComponent ((-n.y + 1) * (1 / 2)) := rfl
  have e2 : (decodeFirstThree (normalTuple n)).getD 2 0
      = decodeComponent ((n.z + 1) * (1 / 2)) := rfl
  rw [e0, e1, e2]
  unfold decodeComponent
  refine ⟨by ring, by ring, by ring⟩

/-- Witness for amended C2 at the unit normal `(0, 1, 0)`. -/
theorem C2_amended_witness :
    (decodeFirstThree (normalTuple ⟨0, 1, 0⟩)).headD 0 = (0 : ℚ)
      ∧ -((decodeFirstThree (normalTuple ⟨0, 1, 0⟩)).getD 1 0) = (1 : ℚ)
      ∧ (decodeFirstThree (normalTuple ⟨0, 1, 0⟩)).getD 2 0 = (0 : ℚ) :=
  C2_normal_roundtrip_amended ⟨0, 1, 0⟩ (by norm_num)

/-- Column-address UV written by `create_export_mesh_object`:
`((index + 0.5) / count, 128/255)`. -/
def uvColumnValue (idx count : Nat) : ℚ × ℚ :=
  (((idx : ℚ) + 1 / 2) / (count : ℚ), 128 / 255)

/-- Rigid branch of `create_export_mesh_object` (lines 100-106): starting from
the freshly created UV layer (all loops at `(0, 0)`), for each rigid group in
dict order, for each member VERTEX index `vi`, writes the group's column UV
into `uv_layer.data[vi]`.  `uv_layer.data` is per-LOOP storage, so entry `vi`
is loop number `vi`, not the loops that use vertex `vi`. -/
def assignUVsRigid (numLoops : Nat) (groups : List (List Nat)) : List (ℚ × ℚ) :=
  (groups.enum).foldl
    (fun uv p =>
      p.2.foldl (fun acc vi => acc.set vi (uvColumnValue p.1 groups.length)) uv)
    (List.replicate numLoops ((0 : ℚ), (0 : ℚ)))

/-- Non-rigid branch (lines 108-111): every loop gets its own vertex's column. -/
def assignUVsNonRigid (loopVerts : List Nat) (numVerts : Nat) : List (ℚ × ℚ) :=
  loopVerts.map (fun v => uvColumnValue v numVerts)

/-- The assignment claim C3 describes (the spec's words): every mesh loop
receives the column address of the rigid group owning that loop's vertex.
`loopVerts` is `loop.vertex_index` per loop. -/
def claimRigidUV (loopVerts : List Nat) (groups : List (List Nat)) :
    List (ℚ × ℚ) :=
  loopVerts.map (fun v =>
    uvColumnValue (groups.findIdx (fun g => g.contains v)) groups.length)

/-- C3 is a code bug.  Failing input: a mesh with 4 vertices and 6 loops with
`loop.vertex_index = [0, 1, 2, 0, 2, 3]` (one quad triangulated into two
triangles), and one rigid group owning vertices `{0, 1, 2, 3}`.  The code
writes the column UV into `uv_layer.data[0..3]` (indexing per-loop data by
vertex index) and leaves loops 4 and 5 at the default `(0, 0)`, while the
claimed per-loop assignment gives loop 4 (vertex 2, owned by group 0) the
column address `((0 + 0.5)/1, 128/255)`. -/
theorem C3_rigid_uv_bug :
    (assignUVsRigid 6 [[0, 1, 2, 3]]).getD 4 (0, 0) = ((0 : ℚ), (0 : ℚ))
      ∧ (claimRigidUV [0, 1, 2, 0, 2, 3] [[0, 1, 2, 3]]).getD 4 (0, 0)
          = uvColumnValue 0 1
      ∧ ((0 : ℚ), (0 : ℚ)) ≠ uvColumnValue 0 1 := by
  refine ⟨rfl, rfl, ?_⟩
  simp only [uvColumnValue, Prod.mk.injEq, not_and, ne_eq]
  intro h1 h2
  norm_num at h2

/-- Combined vertex count of the selected objects
(`sum([len(ob.data.vertices) for ob in objects])`). -/
def totalVertCount : List SceneObject → Nat
  | [] => 0
  | ob :: rest => ob.vertCount + totalVertCount rest

/-- Vertex records of the combined snapshot at frame `f`: `bmesh`
concatenation in object order, each object in native vertex order,
no welding across seams. -/
def snapshotVerts (f : Int) : List SceneObject → List Vert
  | [] => []
  | ob :: rest => (List.range ob.vertCount).map (ob.evalVert f) ++ snapshotVerts f rest

/-- One combined, evaluated frame snapshot. -/
def snapshotAt (objects : List SceneObject) (f : Int) : MeshData :=
  ⟨snapshotVerts f objects⟩

theorem snapshotVerts_length (f : Int) :
    ∀ objects : List SceneObject,
      (snapshotVerts f objects).length = totalVertCount objects := by
  intro objects
  induction objects with
  | nil => rfl
  | cons ob rest ih => simp [snapshotVerts, totalVertCount, ih]

theorem snapshotAt_length (objects : List SceneObject) (f : Int) :
    (snapshotAt objects f).verts.length = totalVertCount objects :=
  snapshotVerts_length f objects

/-- Loop vertex indices of the combined (export) mesh: the objects' loops
concatenated in object order, each loop's vertex index shifted by the running
vertex offset of the `bmesh` concatenation. -/
def combinedLoops : List SceneObject → Nat → List Nat
  | [], _ => []
  | ob :: rest, off =>
      ob.loopVerts.map (fun v => v + off) ++ combinedLoops rest (off + ob.vertCount)

/-- One `uv_layer.data[vi].uv = val` write; `none` models the `IndexError`
raised when `vi` is not a valid index into the per-loop array. -/
def setUV (uv : List (ℚ × ℚ)) (vi : Nat) (val : ℚ × ℚ) :
    Option (List (ℚ × ℚ)) :=
  if vi < uv.length then some (uv.set vi val) else none

/-- The inner `for vi in i:` loop of the rigid branch (lines 103-106), with
each write checked. -/
def writeGroupUVs (val : ℚ × ℚ) :
    List Nat → List (ℚ × ℚ) → Option (List (ℚ × ℚ))
  | [], uv => some uv
  | vi :: rest, uv =>
    match setUV uv vi val with
    | none => none
    | some uv2 => writeGroupUVs val rest uv2

/-- The outer `for index, i in enumerate(...)` loop of the rigid branch,
carrying the running group index. -/
def writeAllGroupUVs (numGroups : Nat) :
    Nat → List (List Nat) → List (ℚ × ℚ) → Option (List (ℚ × ℚ))
  | _, [], uv => some uv
  | idx, g :: rest, uv =>
    match writeGroupUVs (uvColumnValue idx numGroups) g uv with
    | none => none
    | some uv2 => writeAllGroupUVs numGroups (idx + 1) rest uv2

/-- Rigid branch of `create_export_mesh_object` with the fallible per-loop
writes; its success value is `assignUVsRigid` (see
`assignUVsRigidChecked_eq`). -/
def assignUVsRigidChecked (numLoops : Nat) (groups : List (List Nat)) :
    Option (List (ℚ × ℚ)) :=
  writeAllGroupUVs groups.length 0 groups
    (List.replicate numLoops ((0 : ℚ), (0 : ℚ)))

/-- `create_export_mesh_object` (lines 94-114): fills the second UV layer and
links the export object.  `none` models the rigid branch's `IndexError` on
`uv_layer.data[vi]` (a member vertex index that is not a loop index), which
aborts the run before the object is linked; the non-rigid branch writes only
`uv_layer.data[loop.index]` and never fails. -/
def create_export_mesh_object (loops : List Nat) (numVerts : Nat)
    (rigid : Bool) (groups : List (List Nat)) : Option (List (ℚ × ℚ)) :=
  if rigid then assignUVsRigidChecked loops.length groups
  else some (assignUVsNonRigid loops numVerts)

theorem writeGroupUVs_some (val : ℚ × ℚ) :
    ∀ (g : List Nat) (uv : List (ℚ × ℚ)),
      (∀ vi ∈ g, vi < uv.length) →
      ∃ uv2, writeGroupUVs val g uv = some uv2 ∧ uv2.length = uv.length := by
  intro g
  induction g with
  | nil => intro uv _; exact ⟨uv, rfl, rfl⟩
  | cons vi rest ih =>
      intro uv hv
      have h1 : vi < uv.length := hv vi (by simp)
      obtain ⟨uv2, h2, h3⟩ := ih (uv.set vi val)
        (fun w hw => by rw [List.length_set]; exact hv w (List.mem_cons_of_mem _ hw))
      refine ⟨uv2, ?_, by rw [h3, List.length_set]⟩
      rw [writeGroupUVs, setUV, if_pos h1]
      exact h2

theorem writeAllGroupUVs_some (numGroups : Nat) :
    ∀ (gs : List (List Nat)) (idx : Nat) (uv : List (ℚ × ℚ)),
      (∀ g ∈ gs, ∀ vi ∈ g, vi < uv.length) →
      ∃ uv2, writeAllGroupUVs numGroups idx gs uv = some uv2 := by
  intro gs
  induction gs with
  | nil => intro idx uv _; exact ⟨uv, rfl⟩
  | cons g rest ih =>
      intro idx uv hv
      obtain ⟨uvm, h1, h2⟩ := writeGroupUVs_some (uvColumnValue idx numGroups)
        g uv (hv g (by simp))
      obtain ⟨uv2, h3⟩ := ih (idx + 1) uvm
        (fun g' hg' vi hvi => by
          rw [h2]
          exact hv g' (List.mem_cons_of_mem _ hg') vi hvi)
      refine ⟨uv2, ?_⟩
      rw [writeAllGroupUVs, h1]
      exact h3

theorem assignUVsRigidChecked_some (numLoops : Nat) (groups : List (List Nat))
    (h : ∀ g ∈ groups, ∀ vi ∈ g, vi < numLoops) :
    ∃ uv, assignUVsRigidChecked numLoops groups = some uv := by
  unfold assignUVsRigidChecked
  exact writeAllGroupUVs_some groups.length groups 0 _
    (fun g hg vi hvi => by
      rw [List.length_replicate]
      exact h g hg vi hvi)

theorem writeGroupUVs_eq (val : ℚ × ℚ) :
    ∀ (g : List Nat) (uv uv2 : List (ℚ × ℚ)),
      writeGroupUVs val g uv = some uv2 →
      uv2 = g.foldl (fun acc vi => acc.set vi val) uv := by
  intro g
  induction g with
  | nil =>
      intro uv uv2 h
      simp only [writeGroupUVs, Option.some.injEq] at h
      rw [← h]
      rfl
  | cons vi rest ih =>
      intro uv uv2 h
      rw [writeGroupUVs] at h
      cases hs : setUV uv vi val with
      | none => rw [hs] at h; simp at h
      | some uvm =>
          rw [hs] at h
          have hm : uvm = uv.set vi val := by
            unfold setUV at hs
            split at hs
            · simp only [Option.some.injEq] at hs
              rw [hs]
            · simp at hs
          rw [List.foldl_cons, ← hm]
          exact ih uvm uv2 h

/-- On success, the checked rigid writes produce exactly `assignUVsRigid`:
the total function is the in-range restriction of the fallible one. -/
theorem assignUVsRigidChecked_eq (numLoops : Nat) (groups : List (List Nat))
    (uv : List (ℚ × ℚ))
    (h : assignUVsRigidChecked numLoops groups = some uv) :
    uv = assignUVsRigid numLoops groups := by
  have key : ∀ (gs : List (List Nat)) (idx : Nat) (uv0 uv2 : List (ℚ × ℚ)),
      writeAllGroupUVs groups.length idx gs uv0 = some uv2 →
      uv2 = (gs.enumFrom idx).foldl
        (fun acc p =>
          p.2.foldl (fun a vi => a.set vi (uvColumnValue p.1 groups.length)) acc)
        uv0 := by
    intro gs
    induction gs with
    | nil =>
        intro idx uv0 uv2 h2
        simp only [writeAllGroupUVs, Option.some.injEq] at h2
        rw [← h2]
        rfl
    | cons g rest ih =>
        intro idx uv0 uv2 h2
        rw [writeAllGroupUVs] at h2
        cases hs : writeGroupUVs (uvColumnValue idx groups.length) g uv0 with
        | none => rw [hs] at h2; simp at h2
        | some uvm =>
            rw [hs] at h2
            have hm := writeGroupUVs_eq (uvColumnValue idx groups.length)
              g uv0 uvm hs
            rw [List.enumFrom_cons, List.foldl_cons, ← hm]
            exact ih (idx + 1) uvm uv2 h2
  have h2 := key groups 0 (List.replicate numLoops ((0 : ℚ), (0 : ℚ))) uv h
  rw [h2]
  rfl

/-- Structural `List Char` starts-with test. -/
def listStarts : List Char → List Char → Bool
  | _, [] => true
  | [], _ :: _ => false
  | c :: cs, d :: ds => c == d && listStarts cs ds

/-- `name.startswith(marker)` on the underlying character lists. -/
def strStarts (s marker : String) : Bool := listStarts s.data marker.data

/-- Inner loop of the rigid-name scan: append group names carrying the
reserved `RGD` marker, deduplicated, preserving first-discovery order
(execute, lines 230-234). -/
def addRigidNames (acc : List String) (names : List String) : List String :=
  names.foldl
    (fun a g => if strStarts g "RGD" && !(a.contains g) then a ++ [g] else a) acc

/-- `rigid_group_list` collected across all selected objects. -/
def collectRigidNames (objects : List SceneObject) : List String :=
  objects.foldl (fun acc ob => addRigidNames acc ob.vertexGroups) []

/-- The first group of vertex `v` (in `v.groups` order) whose name is in the
reserved list — the group that receives `v` (lines 81-84, first match wins). -/
def firstRigidName (ob : SceneObject) (rigidGroups : List String) (v : Nat) :
    Option String :=
  (ob.vgroups v).findSome? (fun gi =>
    let nm := ob.vertexGroups.getD gi ""
    if rigidGroups.contains nm then some nm else none)

/-- Global vertex indices appended to group `gname`, walking the objects with
a running `vert_count` offset (lines 77-85). -/
def membersFrom (rigidGroups : List String) (gname : String) :
    List SceneObject → Nat → List Nat
  | [], _ => []
  | ob :: rest, off =>
      (((List.range ob.vertCount).filter
          (fun v => firstRigidName ob rigidGroups v == some gname)).map
        (fun v => v + off))
        ++ membersFrom rigidGroups gname rest (off + ob.vertCount)

/-- `rigid_vert_groups` built at the reference frame: one member list per
reserved group name, lists in dict insertion order (= the name list order). -/
def buildRigidVertGroups (objects : List SceneObject)
    (rigidGroups : List String) : List (List Nat) :=
  rigidGroups.map (fun g => membersFrom rigidGroups g objects 0)

theorem membersFrom_lt (rigidGroups : List String) (gname : String) :
    ∀ (objs : List SceneObject) (off vi : Nat),
      vi ∈ membersFrom rigidGroups gname objs off →
      vi < off + totalVertCount objs := by
  intro objs
  induction objs with
  | nil => intro off vi h; simp [membersFrom] at h
  | cons ob rest ih =>
      intro off vi h
      rw [membersFrom] at h
      rcases List.mem_append.mp h with h1 | h2
      · obtain ⟨v, hv, rfl⟩ := List.mem_map.mp h1
        have hvr := List.mem_range.mp (List.mem_filter.mp hv).1
        simp only [totalVertCount]
        omega
      · have := ih (off + ob.vertCount) vi h2
        simp only [totalVertCount]
        omega

theorem buildRigidVertGroups_member_lt (objects : List SceneObject)
    (names : List String) (g : List Nat)
    (hg : g ∈ buildRigidVertGroups objects names) :
    ∀ vi ∈ g, vi < totalVertCount objects := by
  obtain ⟨nm, _hnm, rfl⟩ := List.mem_map.mp hg
  intro vi hvi
  have := membersFrom_lt names nm objects 0 vi hvi
  omega

/-- C9 (amended): every member index recorded in any RigidGroup is valid
against the combined vertex count (so also against every snapshot's vertex
count).  The claim's non-emptiness half is dropped: a reserved-name group to
which no vertex is assigned yields an empty member list even though the run
passes validation, and the extractor's `i[0]` access then fails
(see the counterexample). -/
theorem C9_member_indices_valid (objects : List SceneObject)
    (names : List String) (g : List Nat)
    (hg : g ∈ buildRigidVertGroups objects names) :
    ∀ vi ∈ g, vi < totalVertCount objects :=
  buildRigidVertGroups_member_lt objects names g hg

/-- Object for the C9 amended witness: one vertex assigned to group `RGDa`. -/
def objC9w : SceneObject :=
  { vertCount := 1
    loopVerts := []
    modifiers := []
    vertexGroups := ["RGDa"]
    vgroups := fun _ => [0]
    evalVert := fun _ _ => default }

/-- Witness for amended C9: the single group of `objC9w` is `[0]` and its
member index 0 is below the combined vertex count 1. -/
theorem C9_amended_witness : (0 : Nat) < totalVertCount [objC9w] :=
  C9_member_indices_valid [objC9w] ["RGDa"] [0] (by decide) 0 (by decide)

/-- Result of `get_per_frame_mesh_data`.  `exportMesh = none` models the
`export_mesh` local never being assigned, which would surface as an uncaught
`UnboundLocalError` at the `return` statement. -/
structure FrameData where
  meshes : List MeshData
  exportMesh : Option MeshData
  rigidVertGroups : List (List Nat)

/-- `get_per_frame_mesh_data` (lines 52-91).  `meshes.remove(meshes[-1])`
removes the first element equal to the last one; bpy datablocks compare by
identity and every snapshot is a fresh datablock, so exactly the
chronologically last snapshot is dropped — modelled as `dropLast`. -/
def getPerFrameCore (objects : List SceneObject) (frames : List Int)
    (refFrame : Int) (rigid : Bool) (rigidGroups : List String) : FrameData :=
  { meshes := (frames.map (snapshotAt objects)).dropLast
    exportMesh :=
      if refFrame ∈ frames then some (snapshotAt objects refFrame) else none
    rigidVertGroups :=
      if rigid ∧ refFrame ∈ frames then buildRigidVertGroups objects rigidGroups
      else [] }

def get_per_frame_mesh_data (objects : List SceneObject) (cfg : SceneCfg)
    (refFrame : Int) (rigid : Bool) (rigidGroups : List String) : FrameData :=
  getPerFrameCore objects (frameRange cfg) refFrame rigid rigidGroups

/-- C10: with the host invariants `frame_start ≤ frame_end` and
`frame_step ≥ 1`, the clamped reference frame is always one of the sampled
frames, so the sampling loop always assigns `export_mesh` (the snapshot
at the effective reference frame) and the unbound-variable branch is
unreachable. -/
theorem C10_export_mesh_assigned (objects : List SceneObject) (cfg : SceneCfg)
    (rigidGroups : List String)
    (h1 : cfg.frameStart ≤ cfg.frameEnd) (h2 : 1 ≤ cfg.frameStep) :
    effectiveRefFrame cfg ∈ frameRange cfg
      ∧ (get_per_frame_mesh_data objects cfg (effectiveRefFrame cfg) cfg.rigid
            rigidGroups).exportMesh
          = some (snapshotAt objects (effectiveRefFrame cfg)) := by
  have hm := effectiveRefFrame_mem cfg h1 h2
  exact ⟨hm, by simp [get_per_frame_mesh_data, getPerFrameCore, hm]⟩

/-- Witness for C10: frames 0..2, configured reference frame 5 (out of range,
clamped to 0); the export mesh is the snapshot at frame 0. -/
theorem C10_witness :
    effectiveRefFrame ⟨0, 2, 1, 5, false⟩ ∈ frameRange ⟨0, 2, 1, 5, false⟩
      ∧ (get_per_frame_mesh_data [] ⟨0, 2, 1, 5, false⟩
            (effectiveRefFrame ⟨0, 2, 1, 5, false⟩) false []).exportMesh
          = some (snapshotAt [] (effectiveRefFrame ⟨0, 2, 1, 5, false⟩)) :=
  C10_export_mesh_assigned [] ⟨0, 2, 1, 5, false⟩ [] (by decide) (by decide)

/-- The offset tuple emitted per column (lines 125-127 and 131-133):
`offset = (snap - ref) * 100`, emitted as `(x, -y, z, 1)`. -/
def offsetTuple (p r : Vec3) : List ℚ :=
  [(p.x - r.x) * 100, -((p.y - r.y) * 100), (p.z - r.z) * 100, 1]

/-- Python `me.vertices[vi]`; `none` models an `IndexError`. -/
def lookupVert (me : MeshData) (vi : Nat) : Option Vert := me.verts.get? vi

/-- Total lookup of a vertex record (used in specification statements). -/
def vertAt (me : MeshData) (vi : Nat) : Vert := (me.verts.get? vi).getD default

/-- Total lookup of a snapshot in a list (used in specification statements). -/
def meshAt (meshes : List MeshData) (i : Nat) : MeshData :=
  (meshes.get? i).getD ⟨[]⟩

/-- Rigid extraction for one snapshot (lines 122-127): one offset tuple per
group at the group's first member index `i[0]`; `none` models the
`IndexError` on an empty group or an out-of-range vertex access. -/
def rowRigid (me refmesh : MeshData) : List (List Nat) → Option (List ℚ)
  | [] => some []
  | g :: gs =>
    match g with
    | [] => none
    | vi :: _ =>
      match lookupVert me vi, lookupVert refmesh vi, rowRigid me refmesh gs with
      | some p, some r, some rest => some (offsetTuple p.co r.co ++ rest)
      | _, _, _ => none

/-- Non-rigid extraction for one snapshot (lines 128-135): per vertex, the
offset against `refmesh.vertices[v.index]` plus the encoded normal. -/
def rowNonRigid (refmesh : MeshData) :
    List Vert → Nat → Option (List ℚ × List ℚ)
  | [], _ => some ([], [])
  | v :: vs, idx =>
    match lookupVert refmesh idx, rowNonRigid refmesh vs (idx + 1) with
    | some r, some (os, ns) =>
        some (offsetTuple v.co r.co ++ os, normalTuple v.normal ++ ns)
    | _, _ => none

/-- One snapshot's contribution to the two flat sequences. -/
def extractRow (me refmesh : MeshData) (rigid : Bool)
    (groups : List (List Nat)) : Option (List ℚ × List ℚ) :=
  if rigid then (rowRigid me refmesh groups).map (fun os => (os, []))
  else rowNonRigid refmesh me.verts 0

/-- Extraction over a snapshot list, accumulating both flat sequences. -/
def extractRows (refmesh : MeshData) (rigid : Bool)
    (groups : List (List Nat)) : List MeshData → Option (List ℚ × List ℚ)
  | [] => some ([], [])
  | me :: rest =>
    match extractRow me refmesh rigid groups,
        extractRows refmesh rigid groups rest with
    | some (ro, rn), some (os, ns) => some (ro ++ os, rn ++ ns)
    | _, _ => none

/-- `get_vertex_data` (lines 117-138): the retained snapshots are iterated in
reverse chronological order. -/
def get_vertex_data (meshes : List MeshData) (refmesh : MeshData)
    (rigid : Bool) (groups : List (List Nat)) : Option (List ℚ × List ℚ) :=
  extractRows refmesh rigid groups meshes.reverse

/-- Output column count: group count in rigid mode, reference vertex count
otherwise. -/
def numColumns (rigid : Bool) (groups : List (List Nat))
    (refmesh : MeshData) : Nat :=
  if rigid then groups.length else refmesh.verts.length

/-- The (representative) vertex index addressed by output column `c`. -/
def columnRep (rigid : Bool) (groups : List (List Nat)) (c : Nat) : Nat :=
  if rigid then (groups.getD c []).headD 0 else c

/-- The 4-component slice of the flat offset sequence at row `r`, column `c`. -/
def offsetSlice (offs : List ℚ) (cols r c : Nat) : List ℚ :=
  (offs.drop ((r * cols + c) * 4)).take 4

theorem take_len_append {α : Type} (t rest : List α) :
    (t ++ rest).take t.length = t := by
  induction t with
  | nil => simp
  | cons a t ih => simp [ih]

theorem drop_len_append {α : Type} (t rest : List α) (n : Nat) :
    (t ++ rest).drop (t.length + n) = rest.drop n := by
  induction t with
  | nil => simp
  | cons a t ih =>
      rw [show (a :: t).length + n = (t.length + n) + 1 by simp; omega]
      simp only [List.cons_append, List.drop_succ_cons]
      exact ih

theorem drop_append_le {α : Type} :
    ∀ (m s : List α) (b : Nat), b ≤ m.length →
      (m ++ s).drop b = m.drop b ++ s := by
  intro m
  induction m with
  | nil =>
      intro s b hb
      simp at hb
      subst hb
      simp
  | cons a m ih =>
      intro s b hb
      match b with
      | 0 => simp
      | b + 1 =>
          simp only [List.cons_append, List.drop_succ_cons]
          exact ih s b (by simpa using hb)

theorem offsetTuple_length (p r : Vec3) : (offsetTuple p r).length = 4 := rfl

theorem normalTuple_length (n : Vec3) : (normalTuple n).length = 4 := rfl

theorem rowRigid_spec (me refmesh : MeshData) :
    ∀ (groups : List (List Nat)) (os : List ℚ),
      rowRigid me refmesh groups = some os →
      os.length = 4 * groups.length ∧
      ∀ c, c < groups.length →
        ∃ suffix, os.drop (c * 4)
          = offsetTuple (vertAt me ((groups.getD c []).headD 0)).co
              (vertAt refmesh ((groups.getD c []).headD 0)).co ++ suffix := by
  intro groups
  induction groups with
  | nil =>
      intro os h
      simp only [rowRigid, Option.some.injEq] at h
      subst h
      exact ⟨rfl, fun c hc => absurd hc (by simp)⟩
  | cons g gs ih =>
      intro os h
      match g with
      | [] => simp [rowRigid] at h
      | vi :: tl =>
          rw [rowRigid] at h
          cases hmp : lookupVert me vi with
          | none => rw [hmp] at h; simp at h
          | some p =>
            cases hmr : lookupVert refmesh vi with
            | none => rw [hmp, hmr] at h; simp at h
            | some r =>
              cases hrest : rowRigid me refmesh gs with
              | none => rw [hmp, hmr, hrest] at h; simp at h
              | some rest =>
                rw [hmp, hmr, hrest] at h
                simp only [Option.some.injEq] at h
                subst h
                obtain ⟨ihlen, ihslice⟩ := ih rest hrest
                constructor
                · simp [offsetTuple, ihlen]
                  omega
                · intro c hc
                  match c with
                  | 0 =>
                      refine ⟨rest, ?_⟩
                      have hva : vertAt me vi = p := by
                        simp [vertAt, lookupVert] at hmp ⊢
                        rw [hmp]
                        rfl
                      have hvb : vertAt refmesh vi = r := by
                        simp [vertAt, lookupVert] at hmr ⊢
                        rw [hmr]
                        rfl
                      simp [hva, hvb]
                  | c + 1 =>
                      have h4 : (c + 1) * 4 = (offsetTuple p.co r.co).length + c * 4 := by
                        rw [offsetTuple_length]
                        omega
                      rw [h4, drop_len_append]
                      simpa using ihslice c (by simp at hc; omega)

theorem rowNonRigid_spec (refmesh : MeshData) :
    ∀ (vs : List Vert) (idx : Nat) (os ns : List ℚ),
      rowNonRigid refmesh vs idx = some (os, ns) →
      os.length = 4 * vs.length ∧ ns.length = 4 * vs.length ∧
      ∀ c, c < vs.length →
        ∃ suffix, os.drop (c * 4)
          = offsetTuple ((vs.get? c).getD default).co
              (vertAt refmesh (idx + c)).co ++ suffix := by
  intro vs
  induction vs with
  | nil =>
      intro idx os ns h
      simp only [rowNonRigid, Option.some.injEq, Prod.mk.injEq] at h
      obtain ⟨h1, h2⟩ := h
      subst h1
      subst h2
      exact ⟨rfl, rfl, fun c hc => absurd hc (by simp)⟩
  | cons v vs ih =>
      intro idx os ns h
      rw [rowNonRigid] at h
      cases hmr : lookupVert refmesh idx with
      | none => rw [hmr] at h; simp at h
      | some r =>
        cases hrest : rowNonRigid refmesh vs (idx + 1) with
        | none => rw [hmr, hrest] at h; simp at h
        | some p =>
          obtain ⟨os', ns'⟩ := p
          rw [hmr, hrest] at h
          simp only [Option.some.injEq, Prod.mk.injEq] at h
          obtain ⟨h1, h2⟩ := h
          subst h1
          subst h2
          obtain ⟨ihlen1, ihlen2, ihslice⟩ := ih (idx + 1) os' ns' hrest
          refine ⟨?_, ?_, ?_⟩
          · simp [offsetTuple, ihlen1]
            omega
          · simp [normalTuple, ihlen2]
            omega
          · intro c hc
            match c with
            | 0 =>
                refine ⟨os', ?_⟩
                have hvb : vertAt refmesh idx = r := by
                  simp [vertAt, lookupVert] at hmr ⊢
                  rw [hmr]
                  rfl
                simp [hvb]
            | c + 1 =>
                have h4 : (c + 1) * 4 = (offsetTuple v.co r.co).length + c * 4 := by
                  rw [offsetTuple_length]
                  omega
                rw [h4, drop_len_append]
                have hadd : idx + (c + 1) = (idx + 1) + c := by omega
                rw [hadd]
                exact ihslice c (by simp at hc; omega)

theorem get?_isSome_of_lt {α : Type} (l : List α) (n : Nat) (h : n < l.length) :
    ∃ x, l.get? n = some x :=
  ⟨l.get ⟨n, h⟩, List.get?_eq_get h⟩

theorem rowRigid_some (me refmesh : MeshData) :
    ∀ groups : List (List Nat),
      (∀ g ∈ groups, g ≠ []) →
      (∀ g ∈ groups, ∀ vi ∈ g,
        vi < me.verts.length ∧ vi < refmesh.verts.length) →
      ∃ os, rowRigid me refmesh groups = some os := by
  intro groups
  induction groups with
  | nil => intro _ _; exact ⟨[], rfl⟩
  | cons g gs ih =>
      intro hne hval
      obtain ⟨vi, tl, rfl⟩ : ∃ vi tl, g = vi :: tl := by
        cases g with
        | nil => exact absurd rfl (hne [] (by simp))
        | cons a b => exact ⟨a, b, rfl⟩
      have hv := hval (vi :: tl) (by simp) vi (by simp)
      obtain ⟨p, hp⟩ := get?_isSome_of_lt me.verts vi hv.1
      obtain ⟨r, hr⟩ := get?_isSome_of_lt refmesh.verts vi hv.2
      obtain ⟨rest, hrest⟩ := ih
        (fun g hg => hne g (List.mem_cons_of_mem _ hg))
        (fun g hg => hval g (List.mem_cons_of_mem _ hg))
      refine ⟨offsetTuple p.co r.co ++ rest, ?_⟩
      rw [rowRigid]
      simp only [List.get?_eq_getElem?] at hp hr
      simp [lookupVert, hp, hr, hrest]

theorem rowNonRigid_some (refmesh : MeshData) :
    ∀ (vs : List Vert) (idx : Nat),
      idx + vs.length ≤ refmesh.verts.length →
      ∃ os ns, rowNonRigid refmesh vs idx = some (os, ns) := by
  intro vs
  induction vs with
  | nil => intro idx _; exact ⟨[], [], rfl⟩
  | cons v vs ih =>
      intro idx hle
      obtain ⟨r, hr⟩ := get?_isSome_of_lt refmesh.verts idx (by simp at hle; omega)
      obtain ⟨os, ns, hrest⟩ := ih (idx + 1) (by simp at hle; omega)
      refine ⟨offsetTuple v.co r.co ++ os, normalTuple v.normal ++ ns, ?_⟩
      rw [rowNonRigid]
      simp only [List.get?_eq_getElem?] at hr
      simp [lookupVert, hr, hrest]

theorem extractRow_some (me refmesh : MeshData) (rigid : Bool)
    (groups : List (List Nat))
    (hlen : me.verts.length = refmesh.verts.length)
    (hne : rigid = true → ∀ g ∈ groups, g ≠ [])
    (hval : rigid = true → ∀ g ∈ groups, ∀ vi ∈ g, vi < refmesh.verts.length) :
    ∃ os ns, extractRow me refmesh rigid groups = some (os, ns)
      ∧ os.length = 4 * numColumns rigid groups refmesh := by
  cases rigid with
  | false =>
      obtain ⟨os, ns, h⟩ := rowNonRigid_some refmesh me.verts 0 (by omega)
      refine ⟨os, ns, by simpa [extractRow] using h, ?_⟩
      have := (rowNonRigid_spec refmesh me.verts 0 os ns h).1
      simp [numColumns, this, hlen]
  | true =>
      obtain ⟨os, h⟩ := rowRigid_some me refmesh groups (hne rfl)
        (fun g hg vi hvi =>
          ⟨by rw [hlen]; exact hval rfl g hg vi hvi, hval rfl g hg vi hvi⟩)
      refine ⟨os, [], by simp [extractRow, h], ?_⟩
      have := (rowRigid_spec me refmesh groups os h).1
      simp [numColumns, this]

theorem extractRow_len (me refmesh : MeshData) (rigid : Bool)
    (groups : List (List Nat)) (os ns : List ℚ)
    (hlen : me.verts.length = refmesh.verts.length)
    (h : extractRow me refmesh rigid groups = some (os, ns)) :
    os.length = 4 * numColumns rigid groups refmesh := by
  cases rigid with
  | false =>
      have := (rowNonRigid_spec refmesh me.verts 0 os ns
        (by simpa [extractRow] using h)).1
      simp [numColumns, this, hlen]
  | true =>
      cases hx : rowRigid me refmesh groups with
      | none => rw [extractRow] at h; simp [hx] at h
      | some os' =>
          rw [extractRow] at h
          simp only [if_true, hx, Option.map_some', Option.some.injEq,
            Prod.mk.injEq] at h
          have hlen2 := (rowRigid_spec me refmesh groups os' hx).1
          rw [← h.1]
          simp [numColumns, hlen2]

theorem extractRows_some (refmesh : MeshData) (rigid : Bool)
    (groups : List (List Nat))
    (hne : rigid = true → ∀ g ∈ groups, g ≠ [])
    (hval : rigid = true → ∀ g ∈ groups, ∀ vi ∈ g, vi < refmesh.verts.length) :
    ∀ l : List MeshData,
      (∀ me ∈ l, me.verts.length = refmesh.verts.length) →
      ∃ os ns, extractRows refmesh rigid groups l = some (os, ns)
        ∧ os.length = 4 * numColumns rigid groups refmesh * l.length := by
  intro l
  induction l with
  | nil => intro _; exact ⟨[], [], rfl, by simp⟩
  | cons me l ih =>
      intro hu
      obtain ⟨ro, rn, hrow, hrowlen⟩ :=
        extractRow_some me refmesh rigid groups (hu me (by simp)) hne hval
      obtain ⟨os, ns, hrows, hoslen⟩ :=
        ih (fun m hm => hu m (List.mem_cons_of_mem _ hm))
      refine ⟨ro ++ os, rn ++ ns, ?_, ?_⟩
      · rw [extractRows]
        simp [hrow, hrows]
      · simp only [List.length_append, List.length_cons, hrowlen, hoslen]
        ring

theorem extractRows_slice (refmesh : MeshData) (rigid : Bool)
    (groups : List (List Nat)) (W : Nat)
    (hW : W = 4 * numColumns rigid groups refmesh) :
    ∀ (l : List MeshData) (os ns : List ℚ),
      extractRows refmesh rigid groups l = some (os, ns) →
      (∀ me ∈ l, me.verts.length = refmesh.verts.length) →
      ∀ i, i < l.length →
        ∃ ro rn suffix,
          extractRow (meshAt l i) refmesh rigid groups = some (ro, rn)
            ∧ ro.length = W ∧ os.drop (i * W) = ro ++ suffix := by
  intro l
  induction l with
  | nil => intro os ns _ _ i hi; exact absurd hi (by simp)
  | cons me l ih =>
      intro os ns h hu i hi
      rw [extractRows] at h
      cases hrow : extractRow me refmesh rigid groups with
      | none => rw [hrow] at h; simp at h
      | some p =>
        obtain ⟨ro, rn⟩ := p
        cases hrows : extractRows refmesh rigid groups l with
        | none => rw [hrow, hrows] at h; simp at h
        | some q =>
          obtain ⟨os', ns'⟩ := q
          rw [hrow, hrows] at h
          simp only [Option.some.injEq, Prod.mk.injEq] at h
          obtain ⟨h1, h2⟩ := h
          subst h1
          subst h2
          have hrolen : ro.length = W := by
            rw [hW]
            exact extractRow_len me refmesh rigid groups ro rn
              (hu me (by simp)) hrow
          match i with
          | 0 =>
              exact ⟨ro, rn, os', by simpa [meshAt] using hrow, hrolen, by simp⟩
          | i + 1 =>
              have hdrop : (ro ++ os').drop ((i + 1) * W) = os'.drop (i * W) := by
                rw [show (i + 1) * W = ro.length + i * W by rw [hrolen]; ring]
                exact drop_len_append ro os' (i * W)
              obtain ⟨ro', rn', suffix, ha, hb, hc⟩ :=
                ih os' ns' hrows (fun m hm => hu m (List.mem_cons_of_mem _ hm))
                  i (by simp at hi; omega)
              refine ⟨ro', rn', suffix, by simpa [meshAt] using ha, hb, ?_⟩
              rw [hdrop]
              exact hc

theorem offsetTuple_self (v : Vec3) : offsetTuple v v = [0, 0, 0, 1] := by
  simp [offsetTuple]

/-- C5: for every retained snapshot (row `r` counts reverse-chronologically)
and every output column `c`, the 4-component slice of the flat offset
sequence equals `((sx-rx)*100, -(sy-ry)*100, (sz-rz)*100, 1)` for the
column's (representative) vertex; consequently, at the row whose snapshot is
the reference mesh, the tuple is `(0, 0, 0, 1)`.  Hypotheses: extraction
succeeded, and all snapshots share the reference topology's vertex count. -/
theorem C5_offset_formula (meshes : List MeshData) (refmesh : MeshData)
    (rigid : Bool) (groups : List (List Nat)) (offs norms : List ℚ)
    (hx : get_vertex_data meshes refmesh rigid groups = some (offs, norms))
    (hu : ∀ me ∈ meshes, me.verts.length = refmesh.verts.length)
    (r c : Nat) (hr : r < meshes.length)
    (hc : c < numColumns rigid groups refmesh) :
    offsetSlice offs (numColumns rigid groups refmesh) r c
        = offsetTuple
            (vertAt (meshAt meshes (meshes.length - 1 - r))
              (columnRep rigid groups c)).co
            (vertAt refmesh (columnRep rigid groups c)).co
      ∧ (meshAt meshes (meshes.length - 1 - r) = refmesh →
          offsetSlice offs (numColumns rigid groups refmesh) r c
            = [0, 0, 0, 1]) := by
  set cols := numColumns rigid groups refmesh with hcols
  set W := 4 * cols with hWdef
  have hr' : r < meshes.reverse.length := by
    rw [List.length_reverse]
    exact hr
  obtain ⟨ro, rn, suffix1, hrow, hrolen, hdrop1⟩ :=
    extractRows_slice refmesh rigid groups W hWdef meshes.reverse offs norms hx
      (fun me hm => hu me (List.mem_reverse.mp hm)) r hr'
  have hmrev : meshAt meshes.reverse r = meshAt meshes (meshes.length - 1 - r) := by
    unfold meshAt
    rw [List.get?_reverse hr]
  rw [hmrev] at hrow
  set snap := meshAt meshes (meshes.length - 1 - r) with hsnap
  have hslice2 : ∃ suffix2, ro.drop (c * 4)
      = offsetTuple (vertAt snap (columnRep rigid groups c)).co
          (vertAt refmesh (columnRep rigid groups c)).co ++ suffix2 := by
    cases rigid with
    | false =>
        have hrown : rowNonRigid refmesh snap.verts 0 = some (ro, rn) := by
          simpa [extractRow] using hrow
        have hcc : c < snap.verts.length := by
          have hcv : cols = refmesh.verts.length := by simp [hcols, numColumns]
          have hsl : snap.verts.length = refmesh.verts.length := by
            rcases Nat.lt_or_ge (meshes.length - 1 - r) meshes.length with hlt | hge
            · obtain ⟨m, hm⟩ := get?_isSome_of_lt meshes _ hlt
              have hsm : snap = m := by
                rw [hsnap]
                unfold meshAt
                rw [hm]
                rfl
              rw [hsm]
              exact hu m (List.get?_mem hm)
            · omega
          omega
        obtain ⟨suffix2, hs2⟩ :=
          (rowNonRigid_spec refmesh snap.verts 0 ro rn hrown).2.2 c hcc
        refine ⟨suffix2, ?_⟩
        rw [hs2]
        have : (snap.verts.get? c).getD default = vertAt snap c := rfl
        rw [this]
        simp [columnRep]
    | true =>
        have hrog : rowRigid snap refmesh groups = some ro := by
          cases hx2 : rowRigid snap refmesh groups with
          | none => rw [extractRow] at hrow; simp [hx2] at hrow
          | some os' =>
              rw [extractRow] at hrow
              simp only [if_true, hx2, Option.map_some', Option.some.injEq,
                Prod.mk.injEq] at hrow
              rw [hrow.1]
        have hcg : c < groups.length := by
          have : cols = groups.length := by simp [hcols, numColumns]
          omega
        obtain ⟨suffix2, hs2⟩ :=
          (rowRigid_spec snap refmesh groups ro hrog).2 c hcg
        refine ⟨suffix2, ?_⟩
        rw [hs2]
        simp [columnRep]
  obtain ⟨suffix2, hdrop2⟩ := hslice2
  have hc4 : c * 4 ≤ ro.length := by
    rw [hrolen, hWdef]
    calc c * 4 ≤ cols * 4 := Nat.mul_le_mul_right 4 (le_of_lt hc)
    _ = 4 * cols := Nat.mul_comm _ _
  have hfinal : offs.drop ((r * cols + c) * 4)
      = offsetTuple (vertAt snap (columnRep rigid groups c)).co
          (vertAt refmesh (columnRep rigid groups c)).co
        ++ (suffix2 ++ suffix1) := by
    have e1 : (r * cols + c) * 4 = r * W + c * 4 := by
      rw [hWdef]
      ring
    rw [e1, ← List.drop_drop, hdrop1,
      drop_append_le ro suffix1 (c * 4) hc4, hdrop2, List.append_assoc]
  have hmain : offsetSlice offs cols r c
      = offsetTuple (vertAt snap (columnRep rigid groups c)).co
          (vertAt refmesh (columnRep rigid groups c)).co := by
    rw [offsetSlice, hfinal]
    rw [show (4 : Nat)
        = (offsetTuple (vertAt snap (columnRep rigid groups c)).co
            (vertAt refmesh (columnRep rigid groups c)).co).length from rfl]
    exact take_len_append _ _
  refine ⟨hmain, ?_⟩
  intro heq
  rw [hmain, heq]
  exact offsetTuple_self _

/-- Snapshot data for the C5 witness (two frames of a one-vertex mesh). -/
def vC5a : Vert := ⟨⟨1, 2, 3⟩, ⟨0, 0, 1⟩⟩

def vC5b : Vert := ⟨⟨4, 5, 6⟩, ⟨0, 0, 1⟩⟩

def mC5a : MeshData := ⟨[vC5a]⟩

def mC5b : MeshData := ⟨[vC5b]⟩

def offsC5 : List ℚ :=
  (offsetTuple vC5b.co vC5a.co ++ []) ++ ((offsetTuple vC5a.co vC5a.co ++ []) ++ [])

def normsC5 : List ℚ :=
  (normalTuple vC5b.normal ++ []) ++ ((normalTuple vC5a.normal ++ []) ++ [])

/-- Witness for C5: snapshots `[mC5a, mC5b]`, reference `mC5a`, non-rigid;
row 0 (the latest frame, `mC5b`) at column 0. -/
theorem C5_witness :
    offsetSlice offsC5 (numColumns false [] mC5a) 0 0
        = offsetTuple
            (vertAt (meshAt [mC5a, mC5b] ([mC5a, mC5b].length - 1 - 0))
              (columnRep false [] 0)).co
            (vertAt mC5a (columnRep false [] 0)).co
      ∧ (meshAt [mC5a, mC5b] ([mC5a, mC5b].length - 1 - 0) = mC5a →
          offsetSlice offsC5 (numColumns false [] mC5a) 0 0 = [0, 0, 0, 1]) :=
  C5_offset_formula [mC5a, mC5b] mC5a false [] offsC5 normsC5 rfl
    (by decide) 0 0 (by decide) (by decide)

/-- `allowed_modifiers` (lines 174-182), verbatim from the source. -/
def allowedModifiers : List String :=
  ["ARMATURE", "CAST", "CURVE", "DISPLACE", "HOOK",
   "LAPLACIANDEFORM", "LATTICE", "MESH_DEFORM",
   "SHRINKWRAP", "SIMPLE_DEFORM", "SMOOTH",
   "CORRECTIVE_SMOOTH", "LAPLACIANSMOOTH",
   "SURFACE_DEFORM", "WARP", "WAVE",
   "CLOTH", "COLLISION"]

/-- The allow-list claim C7 asserts to be exact (the spec's 15 entries:
armature, curve, displace, hook, lattice, mesh-deform, shrinkwrap,
simple/corrective/laplacian smooth, surface-deform, warp, wave, cloth,
collision). -/
def claimAllowedModifiers : List String :=
  ["ARMATURE", "CURVE", "DISPLACE", "HOOK", "LATTICE", "MESH_DEFORM",
   "SHRINKWRAP", "SMOOTH", "CORRECTIVE_SMOOTH", "LAPLACIANSMOOTH",
   "SURFACE_DEFORM", "WARP", "WAVE", "CLOTH", "COLLISION"]

/-- First modifier (object order, then stack order) whose type is outside the
allow-list; the operator reports it and cancels (lines 200-207). -/
def findBadModifier (objects : List SceneObject) : Option String :=
  objects.findSome? (fun ob =>
    ob.modifiers.find? (fun m => !(allowedModifiers.contains m)))

/-- The validation failures of the operator, with the datum each message
names. -/
inductive VATError where
  | unsupportedModifier (modType : String)
  | vertexLimit (count : Nat)
  | frameLimit (count : Int)
  | noRigidGroups
  | tooManyRigidGroups (count : Nat)
deriving DecidableEq

/-- Operator result: `{'CANCELLED'}` with a reported error, `{'FINISHED'}`,
or an uncaught Python exception (`crashed`). -/
inductive Outcome where
  | cancelled (e : VATError)
  | finished
  | crashed
deriving DecidableEq

/-- An image created through `data.images.new` plus its assigned pixels. -/
structure ImageSpec where
  name : String
  width : Nat
  height : Int
  floatBuffer : Bool
  pixels : List ℚ
deriving DecidableEq

/-- Observable side effects of one operator run. -/
structure RunEffects where
  framesEvaluated : List Int
  images : List ImageSpec
  objectsCreated : List String
deriving DecidableEq

def noEffects : RunEffects := ⟨[], [], []⟩

/-- The post-validation part of `execute` (lines 249-254): sampling, the UV
writes and object creation of `create_export_mesh_object`, extraction,
baking.  A failing rigid UV write (`IndexError` on `uv_layer.data[vi]`)
aborts the run before the export object is linked and before extraction. -/
def runPipeline (objects : List SceneObject) (frange : List Int)
    (rigid : Bool) (eff : Int) (cols : Nat) (frameCount : Int) :
    Outcome × RunEffects :=
  let fd := getPerFrameCore objects frange eff rigid (collectRigidNames objects)
  match fd.exportMesh with
  | none => (.crashed, ⟨frange, [], []⟩)
  | some refMesh =>
    match create_export_mesh_object (combinedLoops objects 0)
        refMesh.verts.length rigid fd.rigidVertGroups with
    | none => (.crashed, ⟨frange, [], []⟩)
    | some _ =>
      match get_vertex_data fd.meshes refMesh rigid fd.rigidVertGroups with
      | none => (.crashed, ⟨frange, [], ["export_mesh"]⟩)
      | some (offsets, normals) =>
        (.finished,
          ⟨frange,
            if rigid then [⟨"offsets", cols, frameCount, true, offsets⟩]
            else [⟨"offsets", cols, frameCount, true, offsets⟩,
                  ⟨"normals", cols, frameCount, false, normals⟩],
            ["export_mesh"]⟩)

/-- `OBJECT_OT_ProcessAnimMeshes.execute` (lines 189-254) with the reference
frame already clamped to `eff` and the sampled frames given as `frange`;
check order as in the source: modifiers, vertex limit (non-rigid only),
frame limit, rigid-group presence and ceiling, then the pipeline. -/
def executeWithRef (objects : List SceneObject) (frange : List Int)
    (rigid : Bool) (eff : Int) : Outcome × RunEffects :=
  let vertexCount := totalVertCount objects
  let frameCount : Int := (frange.length : Int) - 1
  match findBadModifier objects with
  | some m => (.cancelled (.unsupportedModifier m), noEffects)
  | none =>
    if totalVertCount objects > 8192 ∧ rigid = false then
      (.cancelled (.vertexLimit vertexCount), noEffects)
    else if frameCount > 8192 then
      (.cancelled (.frameLimit frameCount), noEffects)
    else if rigid = true ∧ collectRigidNames objects = [] then
      (.cancelled .noRigidGroups, noEffects)
    else if rigid = true ∧ (collectRigidNames objects).length > 8192 then
      (.cancelled (.tooManyRigidGroups (collectRigidNames objects).length),
        noEffects)
    else
      runPipeline objects frange rigid eff
        (if rigid then (collectRigidNames objects).length else vertexCount)
        frameCount

/-- The operator on a configuration: the clamp of lines 198-199 happens
before all checks, and nothing before it reads the reference frame. -/
def execute (objects : List SceneObject) (cfg : SceneCfg) :
    Outcome × RunEffects :=
  executeWithRef objects (frameRange cfg) cfg.rigid (effectiveRefFrame cfg)

/-- C8: when the configured reference frame is not a sampled frame, the
effective reference frame is the range's first frame, and the substitution is
silent — the whole run (outcome and effects) is identical to a run configured
with `reference_frame = frame_start`. -/
theorem C8_reference_clamp (objects : List SceneObject) (cfg : SceneCfg)
    (h : cfg.refFrame ∉ frameRange cfg) :
    effectiveRefFrame cfg = cfg.frameStart
      ∧ execute objects cfg
          = execute objects { cfg with refFrame := cfg.frameStart } := by
  have h1 : effectiveRefFrame cfg = cfg.frameStart := by
    simp [effectiveRefFrame, h]
  refine ⟨h1, ?_⟩
  unfold execute
  have h2 : effectiveRefFrame { cfg with refFrame := cfg.frameStart }
      = cfg.frameStart := by
    unfold effectiveRefFrame
    split <;> rfl
  rw [h1, h2]
  rfl

/-- Witness for C8: frames 0..1, configured reference frame 99. -/
theorem C8_witness :
    effectiveRefFrame ⟨0, 1, 1, 99, false⟩ = (0 : Int)
      ∧ execute [] ⟨0, 1, 1, 99, false⟩
          = execute [] ⟨0, 1, 1, 0, false⟩ :=
  C8_reference_clamp [] ⟨0, 1, 1, 99, false⟩ (by decide)

theorem findBadModifier_none (objects : List SceneObject) :
    findBadModifier objects = none ↔
      ∀ ob ∈ objects, ∀ m ∈ ob.modifiers, m ∈ allowedModifiers := by
  unfold findBadModifier
  rw [List.findSome?_eq_none]
  constructor
  · intro h ob hob m hm
    have h2 := h ob hob
    rw [List.find?_eq_none] at h2
    simpa using h2 m hm
  · intro h ob hob
    rw [List.find?_eq_none]
    intro m hm
    simpa using h ob hob m hm

theorem findBadModifier_some :
    ∀ (objects : List SceneObject) (m : String),
      findBadModifier objects = some m →
      m ∉ allowedModifiers ∧ ∃ ob ∈ objects, m ∈ ob.modifiers := by
  intro objects
  induction objects with
  | nil => intro m h; simp [findBadModifier] at h
  | cons ob rest ih =>
      intro m h
      unfold findBadModifier at h
      rw [List.findSome?_cons] at h
      cases hfa : ob.modifiers.find? (fun m => !(allowedModifiers.contains m)) with
      | some m' =>
          rw [hfa] at h
          simp only [Option.some.injEq] at h
          subst h
          have hp := List.find?_some hfa
          have hmem := List.mem_of_find?_eq_some hfa
          exact ⟨by simpa using hp, ob, by simp, hmem⟩
      | none =>
          rw [hfa] at h
          obtain ⟨hna, ob', hob', hm⟩ := ih m h
          exact ⟨hna, ob', List.mem_cons_of_mem _ hob', hm⟩

/-- The validation failures listed by claim C6. -/
def validationFails (objects : List SceneObject) (cfg : SceneCfg) : Prop :=
  (∃ ob ∈ objects, ∃ m ∈ ob.modifiers, m ∉ allowedModifiers)
    ∨ (totalVertCount objects > 8192 ∧ cfg.rigid = false)
    ∨ ((frameRange cfg).length : Int) - 1 > 8192
    ∨ (cfg.rigid = true ∧ (collectRigidNames objects = []
        ∨ (collectRigidNames objects).length > 8192))

/-- C6: whenever any validation check fails, the operator cancels with an
error naming the offending datum, and no frame is evaluated, no image is
created and no export object is created. -/
theorem C6_validation_failure (objects : List SceneObject) (cfg : SceneCfg)
    (h : validationFails objects cfg) :
    ∃ e, execute objects cfg = (Outcome.cancelled e, noEffects) := by
  unfold execute executeWithRef
  cases hfb : findBadModifier objects with
  | some m => exact ⟨.unsupportedModifier m, by simp⟩
  | none =>
      have hall := (findBadModifier_none objects).mp hfb
      by_cases hv : totalVertCount objects > 8192 ∧ cfg.rigid = false
      · exact ⟨.vertexLimit (totalVertCount objects), by simp [hv]⟩
      · by_cases hf : ((frameRange cfg).length : Int) - 1 > 8192
        · exact ⟨.frameLimit (((frameRange cfg).length : Int) - 1),
            by simp [hv, hf]⟩
        · by_cases hr1 : cfg.rigid = true ∧ collectRigidNames objects = []
          · exact ⟨.noRigidGroups, by simp [hv, hf, hr1]⟩
          · by_cases hr2 : cfg.rigid = true
                ∧ (collectRigidNames objects).length > 8192
            · have hne' : ¬ collectRigidNames objects = [] :=
                fun he => hr1 ⟨hr2.1, he⟩
              exact ⟨.tooManyRigidGroups (collectRigidNames objects).length,
                by simp [hv, hf, hne', hr2]⟩
            · exfalso
              rcases h with hmod | hv' | hf' | hr'
              · obtain ⟨ob, hob, m, hm, hbad⟩ := hmod
                exact hbad (hall ob hob m hm)
              · exact hv hv'
              · exact hf hf'
              · rcases hr'.2 with he | hg
                · exact hr1 ⟨hr'.1, he⟩
                · exact hr2 ⟨hr'.1, hg⟩

/-- Object with 9000 vertices for the C6 witness (Scenario D of the spec). -/
def objBig : SceneObject :=
  { vertCount := 9000
    loopVerts := []
    modifiers := []
    vertexGroups := []
    vgroups := fun _ => []
    evalVert := fun _ _ => default }

/-- Witness for C6: 9000 vertices with rigid mode off is cancelled with no
effects. -/
theorem C6_witness :
    ∃ e, execute [objBig] ⟨0, 1, 1, 0, false⟩ = (Outcome.cancelled e, noEffects) :=
  C6_validation_failure [objBig] ⟨0, 1, 1, 0, false⟩
    (Or.inr (Or.inl (by decide)))

theorem runPipeline_not_cancelled (objects : List SceneObject)
    (frange : List Int) (rigid : Bool) (eff : Int) (cols : Nat)
    (frameCount : Int) (e : VATError) :
    (runPipeline objects frange rigid eff cols frameCount).1
      ≠ Outcome.cancelled e := by
  unfold runPipeline
  cases hexp : (getPerFrameCore objects frange eff rigid
      (collectRigidNames objects)).exportMesh with
  | none => simp [hexp]
  | some refMesh =>
      cases huv : create_export_mesh_object (combinedLoops objects 0)
          refMesh.verts.length rigid
          (getPerFrameCore objects frange eff rigid
            (collectRigidNames objects)).rigidVertGroups with
      | none => simp [hexp, huv]
      | some uv =>
          cases hvd : get_vertex_data
              (getPerFrameCore objects frange eff rigid
                (collectRigidNames objects)).meshes refMesh rigid
              (getPerFrameCore objects frange eff rigid
                (collectRigidNames objects)).rigidVertGroups with
          | none => simp [hexp, huv, hvd]
          | some p =>
              obtain ⟨offs, ns⟩ := p
              simp [hexp, huv, hvd]

/-- The operator cancels with an unsupported-modifier error for `m` exactly
when `m` is the first modifier found outside the allow-list. -/
theorem execute_unsupported_iff (objects : List SceneObject) (cfg : SceneCfg)
    (m : String) :
    (execute objects cfg).1 = Outcome.cancelled (.unsupportedModifier m)
      ↔ findBadModifier objects = some m := by
  constructor
  · intro h
    unfold execute executeWithRef at h
    cases hfb : findBadModifier objects with
    | some m' =>
        rw [hfb] at h
        simp at h
        rw [h]
    | none =>
        rw [hfb] at h
        exfalso
        simp only [] at h
        split_ifs at h <;>
          first
            | simp at h
            | exact runPipeline_not_cancelled _ _ _ _ _ _ _ h
  · intro h
    simp [execute, executeWithRef, h]

/-- C7 (amended): the validator rejects with an unsupported-modifier error
iff some selected object carries a modifier outside the source's 18-entry
allow-list (which additionally contains `CAST`, `SIMPLE_DEFORM` and
`LAPLACIANDEFORM` compared to the claim's 15 entries); the reported type is
such an offending modifier. -/
theorem C7_modifier_allowlist_amended (objects : List SceneObject)
    (cfg : SceneCfg) :
    ((∃ m, (execute objects cfg).1 = Outcome.cancelled (.unsupportedModifier m))
        ↔ ∃ ob ∈ objects, ∃ m ∈ ob.modifiers, m ∉ allowedModifiers)
      ∧ ∀ m,
          (execute objects cfg).1 = Outcome.cancelled (.unsupportedModifier m) →
          m ∉ allowedModifiers ∧ ∃ ob ∈ objects, m ∈ ob.modifiers := by
  constructor
  · constructor
    · rintro ⟨m, hm⟩
      rw [execute_unsupported_iff] at hm
      obtain ⟨hna, ob, hob, hmem⟩ := findBadModifier_some objects m hm
      exact ⟨ob, hob, m, hmem, hna⟩
    · rintro ⟨ob, hob, m, hm, hbad⟩
      cases hfb : findBadModifier objects with
      | some m' => exact ⟨m', (execute_unsupported_iff objects cfg m').mpr hfb⟩
      | none =>
          exact absurd ((findBadModifier_none objects).mp hfb ob hob m hm) hbad
  · intro m hm
    rw [execute_unsupported_iff] at hm
    obtain ⟨hna, ob, hob, hmem⟩ := findBadModifier_some objects m hm
    exact ⟨hna, ob, hob, hmem⟩

/-- Object carrying a `CAST` modifier (accepted by the code, outside the
claim's 15-entry list). -/
def objCast : SceneObject :=
  { vertCount := 1
    loopVerts := []
    modifiers := ["CAST"]
    vertexGroups := []
    vgroups := fun _ => []
    evalVert := fun _ _ => default }

/-- C7 counterexample: `CAST` lies outside the exact allow-list the claim
states, yet the validator does not reject an object carrying it — the run
finishes.  So the claimed "if and only if" fails. -/
theorem C7_counterexample :
    ¬ ("CAST" ∈ claimAllowedModifiers)
      ∧ findBadModifier [objCast] = none
      ∧ (execute [objCast] ⟨0, 1, 1, 0, false⟩).1 = Outcome.finished := by
  decide

/-- Object with one reserved-name vertex group to which no vertex is
assigned. -/
def objC9 : SceneObject :=
  { vertCount := 1
    loopVerts := []
    modifiers := []
    vertexGroups := ["RGD_empty"]
    vgroups := fun _ => []
    evalVert := fun _ _ => default }

def cfgC9 : SceneCfg := ⟨1, 2, 1, 1, true⟩

/-- C9 counterexample: the rigid run over frames 1..2 passes validation (one
reserved group name exists), but the RigidGroup built for `RGD_empty` is
empty, and the extractor's `i[0]` access fails — the run crashes instead of
finishing. -/
theorem C9_counterexample :
    (execute [objC9] cfgC9).1 = Outcome.crashed
      ∧ buildRigidVertGroups [objC9] (collectRigidNames [objC9]) = [[]] := by
  decide

/-- Object with an unsupported `SUBSURF` modifier for the C7 witness. -/
def objBadMod : SceneObject :=
  { vertCount := 1
    loopVerts := []
    modifiers := ["SUBSURF"]
    vertexGroups := []
    vgroups := fun _ => []
    evalVert := fun _ _ => default }

/-- Witness for amended C7 at an object carrying a `SUBSURF` modifier. -/
theorem C7_amended_witness :
    ((∃ m, (execute [objBadMod] ⟨0, 1, 1, 0, false⟩).1
          = Outcome.cancelled (.unsupportedModifier m))
        ↔ ∃ ob ∈ [objBadMod], ∃ m ∈ ob.modifiers, m ∉ allowedModifiers)
      ∧ ∀ m,
          (execute [objBadMod] ⟨0, 1, 1, 0, false⟩).1
              = Outcome.cancelled (.unsupportedModifier m) →
          m ∉ allowedModifiers ∧ ∃ ob ∈ [objBadMod], m ∈ ob.modifiers :=
  C7_modifier_allowlist_amended [objBadMod] ⟨0, 1, 1, 0, false⟩

/-- Object for the C4 counterexample: two vertices, two reserved groups, the
second (`RGDb`) owning no vertex. -/
def objC4 : SceneObject :=
  { vertCount := 2
    loopVerts := [0, 1, 0]
    modifiers := []
    vertexGroups := ["RGDa", "RGDb"]
    vgroups := fun _ => [0]
    evalVert := fun _ _ => default }

def cfgC4 : SceneCfg := ⟨1, 2, 1, 1, true⟩

/-- C4 counterexample: a configuration that passes validation (rigid mode,
group names `RGDa`, `RGDb` present) crashes during extraction because `RGDb`
is empty, so no offsets image of any dimension is created — the claim's
"for every configuration ... the offset image is created" fails. -/
theorem C4_counterexample :
    (execute [objC4] cfgC4).1 = Outcome.crashed
      ∧ (execute [objC4] cfgC4).2.images = [] := by
  decide

/-- Object with a loose grouped vertex: 4 vertices, one triangle (3 loops),
all vertices in the reserved group `RGDa`. -/
def objLoose : SceneObject :=
  { vertCount := 4
    loopVerts := [0, 1, 2]
    modifiers := []
    vertexGroups := ["RGDa"]
    vgroups := fun _ => [0]
    evalVert := fun _ _ => default }

/-- The rigid UV write path is genuinely fallible: the loose vertex index 3
of `objLoose` is a member of `RGDa` but not a loop index of its 3-loop
export mesh, so `uv_layer.data[3]` raises and the run aborts before the
export object is linked and before any image is created. -/
theorem uvWrite_crash_demo :
    (execute [objLoose] ⟨1, 2, 1, 1, true⟩).1 = Outcome.crashed
      ∧ (execute [objLoose] ⟨1, 2, 1, 1, true⟩).2.objectsCreated = []
      ∧ (execute [objLoose] ⟨1, 2, 1, 1, true⟩).2.images = [] := by
  decide

theorem dropLast_mem {α : Type} (l : List α) (x : α) (h : x ∈ l.dropLast) :
    x ∈ l :=
  List.dropLast_subset l h

theorem buildRigidVertGroups_length (objects : List SceneObject)
    (names : List String) :
    (buildRigidVertGroups objects names).length = names.length := by
  simp [buildRigidVertGroups]

/-- C4 (amended): for every validated run under the host invariants — and,
in rigid mode, provided every reserved-prefix group owns at least one vertex
(otherwise the extractor's `i[0]` fails, see the counterexample) and every
member vertex index is a valid loop index of the export mesh (otherwise the
rigid UV write `uv_layer.data[vi]` raises `IndexError`, the crashing form of
the C3 bug) — the run finishes, exactly the chronologically last snapshot
having been dropped: the offsets image is created first with
width = vertex count (non-rigid) or rigid group count (rigid),
height = sampled frame count - 1, and a flat pixel sequence of length
`columns * (sampled - 1) * 4`. -/
theorem C4_texture_dimensions_amended (objects : List SceneObject)
    (cfg : SceneCfg)
    (h1 : cfg.frameStart ≤ cfg.frameEnd) (h2 : 1 ≤ cfg.frameStep)
    (hmod : findBadModifier objects = none)
    (hv : ¬ (totalVertCount objects > 8192 ∧ cfg.rigid = false))
    (hf : ¬ (((frameRange cfg).length : Int) - 1 > 8192))
    (hr1 : ¬ (cfg.rigid = true ∧ collectRigidNames objects = []))
    (hr2 : ¬ (cfg.rigid = true ∧ (collectRigidNames objects).length > 8192))
    (hne : cfg.rigid = true →
      ∀ g ∈ buildRigidVertGroups objects (collectRigidNames objects), g ≠ [])
    (hloop : cfg.rigid = true →
      ∀ g ∈ buildRigidVertGroups objects (collectRigidNames objects),
        ∀ vi ∈ g, vi < (combinedLoops objects 0).length) :
    ∃ offs,
      (execute objects cfg).1 = Outcome.finished
        ∧ (execute objects cfg).2.images.head?
            = some ⟨"offsets",
                (if cfg.rigid then (collectRigidNames objects).length
                 else totalVertCount objects),
                ((frameRange cfg).length : Int) - 1, true, offs⟩
        ∧ offs.length
            = (if cfg.rigid then (collectRigidNames objects).length
               else totalVertCount objects)
              * ((frameRange cfg).length - 1) * 4 := by
  have hmem := effectiveRefFrame_mem cfg h1 h2
  have hexp : (getPerFrameCore objects (frameRange cfg) (effectiveRefFrame cfg)
      cfg.rigid (collectRigidNames objects)).exportMesh
      = some (snapshotAt objects (effectiveRefFrame cfg)) := by
    simp [getPerFrameCore, hmem]
  have hgg : (getPerFrameCore objects (frameRange cfg) (effectiveRefFrame cfg)
      cfg.rigid (collectRigidNames objects)).rigidVertGroups
      = (if cfg.rigid ∧ effectiveRefFrame cfg ∈ frameRange cfg then
          buildRigidVertGroups objects (collectRigidNames objects) else []) := rfl
  have hu : ∀ me ∈ ((frameRange cfg).map (snapshotAt objects)).dropLast.reverse,
      me.verts.length
        = (snapshotAt objects (effectiveRefFrame cfg)).verts.length := by
    intro me hm
    have hm2 := dropLast_mem _ _ (List.mem_reverse.mp hm)
    obtain ⟨f, _, rfl⟩ := List.mem_map.mp hm2
    rw [snapshotAt_length, snapshotAt_length]
  have hgne : cfg.rigid = true →
      ∀ g ∈ (getPerFrameCore objects (frameRange cfg) (effectiveRefFrame cfg)
        cfg.rigid (collectRigidNames objects)).rigidVertGroups, g ≠ [] := by
    intro hrt g hg
    rw [hgg, if_pos ⟨hrt, hmem⟩] at hg
    exact hne hrt g hg
  have hgval : cfg.rigid = true →
      ∀ g ∈ (getPerFrameCore objects (frameRange cfg) (effectiveRefFrame cfg)
        cfg.rigid (collectRigidNames objects)).rigidVertGroups,
        ∀ vi ∈ g,
          vi < (snapshotAt objects (effectiveRefFrame cfg)).verts.length := by
    intro hrt g hg vi hvi
    rw [hgg, if_pos ⟨hrt, hmem⟩] at hg
    rw [snapshotAt_length]
    exact buildRigidVertGroups_member_lt objects (collectRigidNames objects)
      g hg vi hvi
  have huvstep : ∃ uv, create_export_mesh_object (combinedLoops objects 0)
      (snapshotAt objects (effectiveRefFrame cfg)).verts.length cfg.rigid
      (getPerFrameCore objects (frameRange cfg) (effectiveRefFrame cfg)
        cfg.rigid (collectRigidNames objects)).rigidVertGroups = some uv := by
    by_cases hb : cfg.rigid = true
    · obtain ⟨uv, huv⟩ := assignUVsRigidChecked_some
        (combinedLoops objects 0).length
        ((getPerFrameCore objects (frameRange cfg) (effectiveRefFrame cfg)
          cfg.rigid (collectRigidNames objects)).rigidVertGroups)
        (by
          intro g hg vi hvi
          rw [hgg, if_pos ⟨hb, hmem⟩] at hg
          exact hloop hb g hg vi hvi)
      exact ⟨uv, by rw [create_export_mesh_object, if_pos hb]; exact huv⟩
    · simp only [Bool.not_eq_true] at hb
      exact ⟨assignUVsNonRigid (combinedLoops objects 0)
          (snapshotAt objects (effectiveRefFrame cfg)).verts.length,
        by rw [create_export_mesh_object, if_neg (by simp [hb])]⟩
  obtain ⟨uvdata, huvEq⟩ := huvstep
  obtain ⟨os, ns, hvd, hoslen⟩ :=
    extractRows_some (snapshotAt objects (effectiveRefFrame cfg)) cfg.rigid
      ((getPerFrameCore objects (frameRange cfg) (effectiveRefFrame cfg)
        cfg.rigid (collectRigidNames objects)).rigidVertGroups)
      hgne hgval
      ((frameRange cfg).map (snapshotAt objects)).dropLast.reverse hu
  have hvd2 : get_vertex_data
      (getPerFrameCore objects (frameRange cfg) (effectiveRefFrame cfg)
        cfg.rigid (collectRigidNames objects)).meshes
      (snapshotAt objects (effectiveRefFrame cfg)) cfg.rigid
      (getPerFrameCore objects (frameRange cfg) (effectiveRefFrame cfg)
        cfg.rigid (collectRigidNames objects)).rigidVertGroups
      = some (os, ns) := hvd
  have hcols : numColumns cfg.rigid
      ((getPerFrameCore objects (frameRange cfg) (effectiveRefFrame cfg)
        cfg.rigid (collectRigidNames objects)).rigidVertGroups)
      (snapshotAt objects (effectiveRefFrame cfg))
      = (if cfg.rigid then (collectRigidNames objects).length
         else totalVertCount objects) := by
    rw [hgg]
    by_cases hb : cfg.rigid = true
    · rw [if_pos ⟨hb, hmem⟩]
      simp [numColumns, hb, buildRigidVertGroups_length]
    · simp only [Bool.not_eq_true] at hb
      rw [if_neg (by simp [hb])]
      simp [numColumns, hb, snapshotAt_length]
  have hrowcount :
      ((frameRange cfg).map (snapshotAt objects)).dropLast.reverse.length
        = (frameRange cfg).length - 1 := by
    rw [List.length_reverse, List.length_dropLast, List.length_map]
  have hexec : execute objects cfg
      = (Outcome.finished,
          ⟨frameRange cfg,
            (if cfg.rigid then
                [⟨"offsets",
                  (if cfg.rigid then (collectRigidNames objects).length
                   else totalVertCount objects),
                  ((frameRange cfg).length : Int) - 1, true, os⟩]
              else
                [⟨"offsets",
                  (if cfg.rigid then (collectRigidNames objects).length
                   else totalVertCount objects),
                  ((frameRange cfg).length : Int) - 1, true, os⟩,
                 ⟨"normals",
                  (if cfg.rigid then (collectRigidNames objects).length
                   else totalVertCount objects),
                  ((frameRange cfg).length : Int) - 1, false, ns⟩]),
            ["export_mesh"]⟩) := by
    unfold execute executeWithRef runPipeline
    simp only [hmod, if_neg hv, if_neg hf, if_neg hr1, if_neg hr2, hexp,
      huvEq, hvd2]
  refine ⟨os, ?_, ?_, ?_⟩
  · rw [hexec]
  · rw [hexec]
    cases cfg.rigid <;> simp
  · rw [hoslen, hcols, hrowcount]
    ring

/-- Objects and configuration for the C4 witness: one 2-vertex object,
frames 1..3 (3 sampled, 2 rows), non-rigid. -/
def objC4w : SceneObject :=
  { vertCount := 2
    loopVerts := [0, 1]
    modifiers := []
    vertexGroups := []
    vgroups := fun _ => []
    evalVert := fun _ _ => default }

/-- Witness for amended C4 at frames 1..3 with a 2-vertex object. -/
theorem C4_amended_witness :
    ∃ offs,
      (execute [objC4w] ⟨1, 3, 1, 1, false⟩).1 = Outcome.finished
        ∧ (execute [objC4w] ⟨1, 3, 1, 1, false⟩).2.images.head?
            = some ⟨"offsets",
                (if (false : Bool) then
                  (collectRigidNames [objC4w]).length
                 else totalVertCount [objC4w]),
                ((frameRange ⟨1, 3, 1, 1, false⟩).length : Int) - 1, true, offs⟩
        ∧ offs.length
            = (if (false : Bool) then (collectRigidNames [objC4w]).length
               else totalVertCount [objC4w])
              * ((frameRange ⟨1, 3, 1, 1, false⟩).length - 1) * 4 :=
  C4_texture_dimensions_amended [objC4w] ⟨1, 3, 1, 1, false⟩
    (by decide) (by decide) (by decide) (by decide) (by decide) (by decide)
    (by decide) (by decide) (by decide)

end VATGen
